import Mathlib

/-!
Shallow embedding of `src/pyuap/data.py` (classes `WaterUFONet` and
`FAADroneSightings`) and proofs about the behaviour of its operations.

Conventions used throughout:
* a pandas `DataFrame` read from a spreadsheet is a `Table`: a list of
  column header labels plus column-aligned rows of cell strings;
* the network is a pure function supplied as a parameter (URL to fetch
  result), so every operation is a total function of its inputs;
* `print` diagnostics are modelled as an explicit list of log strings;
* an operation that the Python code lets raise an uncaught exception is
  modelled with an explicit error field or an `Except`/`Option` result.
-/

namespace FAADroneSightings

/-- A spreadsheet table as produced by `pd.read_excel` (data.py line 310):
header labels plus rows whose cells are aligned with the headers. -/
structure Table where
  headers : List String
  rows : List (List String)
deriving DecidableEq, Repr

/-- data.py lines 253-275: mapping of standard column names to their
possible aliases, as written in `file_adapter`. -/
def column_mapping : List (String × List String) :=
  [ ("date",
      ["Date", "Day of Sighting", "Date of Sighting", "Date of Sighitng",
       "Day of Date of Sighting", "Event Date & Time", "Event Date",
       "EventDATETIME", "Event DATETIME", "spEventDateTime"]),
    ("state",
      ["State", "STATE", "LocationSTATE", "spState", "Location STATE"]),
    ("city",
      ["City", "CITY", "LocationCITY", "spCity", "Location CITY"]),
    ("summary",
      ["Summary", "Event Description", "EventREPORTNARRATIVE", "Description",
       "Redacted"]) ]

/-- data.py lines 278-282: the mapping flattened to a single-level
alias-to-standard dictionary used for renaming. -/
def flat_aliases : List (String × String) :=
  column_mapping.flatMap (fun p => p.2.map (fun a => (a, p.1)))

/-- `df.rename(columns=flat_aliases)` applied to one column label: an alias
is replaced by its standard name, any other label is kept (data.py 285). -/
def renameCol (c : String) : String :=
  match flat_aliases.find? (fun p => p.1 = c) with
  | some p => p.2
  | none => c

/-- data.py line 286: `required_columns = {"date", "state", "city", "summary"}`.
The Python value is a set; `list(required_columns)` iterates it in a
hash-dependent order, so we fix one listing.  No theorem below depends on
this order (only on membership and label counts). -/
def required_columns : List String := ["date", "state", "city", "summary"]

/-- Label-based column selection `df[keys]` (data.py line 290): for each key,
all columns whose label equals the key are taken, in their original order.
Rows are assumed column-aligned with the headers, as `read_excel` produces. -/
def selectCols (t : Table) (keys : List String) : Table :=
  { headers := keys.flatMap (fun k => t.headers.filter (fun h => h = k)),
    rows := t.rows.map (fun r =>
      keys.flatMap (fun k =>
        ((t.headers.zip r).filter (fun p => p.1 = k)).map (fun p => p.2))) }

/-- The diagnostic printed by `file_adapter` when required columns are
missing (data.py lines 292-294); it reports the columns actually present. -/
def missing_columns_msg (hs : List String) : String :=
  s!"Missing required columns in DataFrame. Available columns: {hs}"

/-- data.py lines 249-295, `file_adapter`: rename columns through the alias
table, then either select the required columns (skip = false) or report the
columns present and reject (skip = true).  Result: (printed log, skip, df). -/
def file_adapter (t : Table) : List String × Bool × Table :=
  let renamed : Table := { t with headers := t.headers.map renameCol }
  if required_columns.all (fun c => renamed.headers.contains c) then
    ([], false, selectCols renamed required_columns)
  else
    ([missing_columns_msg renamed.headers], true, renamed)

/-- The per-file loop body of `read_files` (data.py lines 306-320): a file
is `none` when `pd.read_excel` raised (caught and skipped), otherwise the
parsed table; a table rejected by `file_adapter` is likewise dropped.  The
surviving adapted tables, in file order. -/
def acceptedTables (files : List (Option Table)) : List Table :=
  files.filterMap (fun f =>
    match f with
    | none => none
    | some t =>
      let r := file_adapter t
      if r.2.1 then none else some r.2.2)

/-- `pd.concat(dfs, axis=0)` (data.py line 329) on the frames emitted by
`file_adapter`: when every frame carries the same header list the rows are
stacked; otherwise the concat raises (frames coming out of `file_adapter`
share the fixed selection label order, so unequal header lists can only
differ in duplicated labels, where pandas reindexing raises
`InvalidIndexError`), which `read_files` catches — modelled as `none`. -/
def concatTables : List Table → Option Table
  | [] => none
  | d :: ds =>
    if ds.all (fun t => t.headers = d.headers) then
      some { headers := d.headers, rows := (d :: ds).flatMap (fun t => t.rows) }
    else none

/-- data.py lines 297-335, `read_files`: glob results are the `files` list
(one entry per file on disk, `none` when reading it raised).  Returns the
printed log together with the merged table, `none` on each of the three
failure paths (no files, no accepted files, concat raised). -/
def read_files (files : List (Option Table)) : List String × Option Table :=
  if files.isEmpty then
    (["No files found in the specified directory."], none)
  else
    let perFile := files.flatMap (fun f =>
      match f with
      | none => ["Error reading file. Skipping."]
      | some t =>
        let r := file_adapter t
        if r.2.1 then r.1 ++ ["Skipping file due to unknown column format."]
        else r.1)
    let dfs := acceptedTables files
    if dfs.isEmpty then
      (perFile ++ ["No files successfully read."], none)
    else
      match concatTables dfs with
      | none => (perFile ++ ["Error concatenating dataframes."], none)
      | some df => (perFile, some df)

end FAADroneSightings

namespace FAADroneSightings

/-- The merged table returned by `read_files` depends only on the list of
accepted adapted tables (and on whether the directory listing was empty,
which the accepted list already reflects when a table was dropped). -/
theorem read_files_snd (files : List (Option Table)) :
    (read_files files).2 =
      if (acceptedTables files).isEmpty then none
      else concatTables (acceptedTables files) := by
  rcases files with _ | ⟨f, fs⟩
  · simp [read_files, acceptedTables]
  · rw [read_files]
    simp only [List.isEmpty_cons, Bool.false_eq_true, if_false]
    by_cases hd : (acceptedTables (f :: fs)).isEmpty
    · simp [hd]
    · simp only [hd, if_false]
      cases hc : concatTables (acceptedTables (f :: fs)) <;> simp [hc]

/-- A table rejected by `file_adapter` contributes nothing to the accepted
list, wherever it sits among the files. -/
theorem acceptedTables_drop_rejected (t : Table)
    (h : (file_adapter t).2.1 = true) (xs ys : List (Option Table)) :
    acceptedTables (xs ++ some t :: ys) = acceptedTables (xs ++ ys) := by
  unfold acceptedTables
  rw [List.filterMap_append, List.filterMap_append, List.filterMap_cons]
  simp only [h, if_true]

end FAADroneSightings

namespace FAADroneSightings

/-- A table with headers no alias covers, rejected by `file_adapter`. -/
def tBad : Table := ⟨["Foo", "Bar"], [["1", "2"]]⟩

/-- A table using one spelling per canonical column, accepted as-is. -/
def tGood : Table :=
  ⟨["Date", "State", "City", "Summary"], [["1/1/21", "CA", "LA", "saw a thing"]]⟩

/-- A table carrying two spellings ("State" and "STATE") that the alias
table maps to the same canonical name. -/
def tDup : Table :=
  ⟨["Date", "State", "STATE", "City", "Summary"],
   [["1/1/21", "CA", "ca", "LA", "saw a thing"]]⟩

/-- Closed form of `file_adapter` on the reject branch. -/
theorem file_adapter_reject (t : Table)
    (h : required_columns.all
      (fun c => (t.headers.map renameCol).contains c) = false) :
    file_adapter t =
      ([missing_columns_msg (t.headers.map renameCol)], true,
       { headers := t.headers.map renameCol, rows := t.rows }) := by
  unfold file_adapter
  dsimp only
  rw [h]
  rfl

/-- Closed form of `file_adapter` on the accept branch. -/
theorem file_adapter_accept (t : Table)
    (h : required_columns.all
      (fun c => (t.headers.map renameCol).contains c) = true) :
    file_adapter t =
      ([], false,
       selectCols { headers := t.headers.map renameCol, rows := t.rows }
         required_columns) := by
  unfold file_adapter
  dsimp only
  rw [h]
  rfl

/-- C1: for every input table that, after renaming headers via the static
alias table, lacks one or more of the canonical columns
{date, state, city, summary}, `file_adapter` rejects it — skip = true and a
diagnostic listing the columns actually present — and `read_files` yields
the same merged output as if that table were absent from the directory, so
none of its rows appears in the merged table. -/
theorem C1_missing_columns_rejected (t : Table)
    (h : required_columns.all
      (fun c => (t.headers.map renameCol).contains c) = false) :
    (file_adapter t).1 = [missing_columns_msg (t.headers.map renameCol)] ∧
    (file_adapter t).2.1 = true ∧
    ∀ xs ys, (read_files (xs ++ some t :: ys)).2 = (read_files (xs ++ ys)).2 := by
  have hskip : (file_adapter t).2.1 = true := by
    rw [file_adapter_reject t h]
  refine ⟨?_, hskip, ?_⟩
  · rw [file_adapter_reject t h]
  · intro xs ys
    rw [read_files_snd, read_files_snd, acceptedTables_drop_rejected t hskip]

/-- C1 witness: a concrete rejected table, dropped from a concrete run. -/
theorem C1_witness :
    required_columns.all
      (fun c => (tBad.headers.map renameCol).contains c) = false ∧
    (read_files ([] ++ some tBad :: [some tGood])).2 =
      (read_files ([] ++ [some tGood])).2 :=
  ⟨by decide, (C1_missing_columns_rejected tBad (by decide)).2.2 [] [some tGood]⟩

theorem filter_eq_replicate (l : List String) (a : String) :
    l.filter (fun h => h = a) = List.replicate (l.count a) a := by
  induction l with
  | nil => simp
  | cons b l ih =>
    by_cases hb : b = a
    · subst hb
      simp [List.filter_cons, List.count_cons, ih, List.replicate_succ]
    · simp [List.filter_cons, List.count_cons, hb, ih]

theorem selectCols_headers (t : Table) (keys : List String) :
    (selectCols t keys).headers =
      keys.flatMap (fun k => List.replicate (t.headers.count k) k) := by
  unfold selectCols
  simp [filter_eq_replicate]

/-- Selecting the required columns preserves the multiplicity of each
canonical label: one output column per matching header occurrence. -/
theorem count_selectCols_required (t : Table) (c : String)
    (hc : c ∈ required_columns) :
    (selectCols t required_columns).headers.count c = t.headers.count c := by
  rw [selectCols_headers]
  have hc4 : c = "date" ∨ c = "state" ∨ c = "city" ∨ c = "summary" := by
    simpa [required_columns] using hc
  rcases hc4 with rfl | rfl | rfl | rfl <;>
    simp [required_columns, List.count_append, List.count_replicate]

end FAADroneSightings

namespace FAADroneSightings

/-- C2 counterexample: a single file whose headers carry both "State" and
"STATE" (two spellings the alias table maps to the canonical name "state")
yields a merged table with two columns labelled "state", not exactly one. -/
theorem C2_counterexample :
    (read_files [some tDup]).2.map (fun df => df.headers.count "state") =
      some 2 ∧ (2 : Nat) ≠ 1 := ⟨by decide, by decide⟩

/-- C2 amended: when two distinct spellings map to the same canonical name,
the merged table does not collapse them: for an accepted table, the merged
output carries one column per header occurrence that renames to the
canonical name (so two columns for "state" when both "State" and "STATE"
appear), the multiplicity being preserved from the renamed header list. -/
theorem C2_amended_column_multiplicity (t : Table) (c : String)
    (hc : c ∈ required_columns)
    (h : required_columns.all
      (fun c => (t.headers.map renameCol).contains c) = true) :
    ((file_adapter t).2.2).headers.count c = (t.headers.map renameCol).count c ∧
    (read_files [some t]).2.map (fun df => df.headers.count c) =
      some ((t.headers.map renameCol).count c) := by
  have hfa := file_adapter_accept t h
  have hcount : (selectCols { headers := t.headers.map renameCol, rows := t.rows }
      required_columns).headers.count c = (t.headers.map renameCol).count c :=
    count_selectCols_required _ c hc
  constructor
  · rw [hfa]
    exact hcount
  · rw [read_files_snd]
    have hacc : acceptedTables [some t] = [(file_adapter t).2.2] := by
      unfold acceptedTables
      rw [List.filterMap_cons]
      simp [hfa]
    rw [hacc, hfa]
    simp [concatTables, hcount]

/-- C2 witness: the amended multiplicity statement evaluated on the table
with both "State" and "STATE" present. -/
theorem C2_amended_witness :
    ("state" ∈ required_columns ∧
      required_columns.all
        (fun c => (tDup.headers.map renameCol).contains c) = true) ∧
    (((file_adapter tDup).2.2).headers.count "state" =
        (tDup.headers.map renameCol).count "state" ∧
      (read_files [some tDup]).2.map (fun df => df.headers.count "state") =
        some ((tDup.headers.map renameCol).count "state")) :=
  ⟨⟨by decide, by decide⟩,
   C2_amended_column_multiplicity tDup "state" (by decide) (by decide)⟩

/-- C7: each failure path of `read_files` — empty directory listing, zero
files surviving read + reconciliation, or a failing concatenation — yields
no table (`none` rather than an empty table) together with a printed
diagnostic; the embedding is a total function, mirroring that every
per-file exception is caught and nothing escapes to the caller. -/
theorem C7_read_files_failure_paths :
    (read_files [] = (["No files found in the specified directory."], none)) ∧
    (∀ files : List (Option Table), files ≠ [] → acceptedTables files = [] →
      (read_files files).2 = none ∧
      "No files successfully read." ∈ (read_files files).1) ∧
    (∀ files : List (Option Table), acceptedTables files ≠ [] →
      concatTables (acceptedTables files) = none →
      (read_files files).2 = none ∧
      "Error concatenating dataframes." ∈ (read_files files).1) := by
  refine ⟨rfl, ?_, ?_⟩
  · rintro (_ | ⟨f, fs⟩) hne hacc
    · exact absurd rfl hne
    · rw [read_files]
      simp only [List.isEmpty_cons, Bool.false_eq_true, if_false, hacc]
      simp
  · rintro (_ | ⟨f, fs⟩) hacc hcat
    · exact absurd rfl hacc
    · rw [read_files]
      simp only [List.isEmpty_cons, Bool.false_eq_true, if_false]
      have hne : ((acceptedTables (f :: fs)).isEmpty) = false := by
        cases hb : acceptedTables (f :: fs) with
        | nil => exact absurd hb hacc
        | cons a as => rfl
      rw [hne]
      simp only [Bool.false_eq_true, if_false, hcat]
      simp

/-- C7 witness: the three failure paths exercised on concrete directory
contents (an unreadable-format table alone; two accepted tables whose
adapted headers differ, one having a duplicated "state" column, which
makes the concatenation raise). -/
theorem C7_witness :
    (read_files [] = (["No files found in the specified directory."], none)) ∧
    ((read_files [some tBad]).2 = none ∧
      "No files successfully read." ∈ (read_files [some tBad]).1) ∧
    ((read_files [some tDup, some tGood]).2 = none ∧
      "Error concatenating dataframes." ∈ (read_files [some tDup, some tGood]).1) :=
  ⟨C7_read_files_failure_paths.1,
   C7_read_files_failure_paths.2.1 [some tBad] (by decide) (by decide),
   C7_read_files_failure_paths.2.2 [some tDup, some tGood] (by decide) (by decide)⟩

end FAADroneSightings

namespace WaterUFONet

/-- data.py lines 29-39: the fixed snapshot dates. -/
def snapshot_dates : List String :=
  ["20191022061839", "20191010100225", "20181221230434", "20171112174144",
   "20160904220814", "20150908120644", "20150507185325", "20140916023935",
   "20130902194856"]

/-- data.py line 26: base url for waterufo. -/
def url : String := "http://www.waterufo.net/2012/search.php?txtSearch=all"

/-- data.py lines 42-44: the web archive snapshot URLs. -/
def snapshots : List String :=
  snapshot_dates.map (fun dt => s!"https://web.archive.org/web/{dt}/{url}")

/-- The state a successfully constructed `WaterUFONet` carries. -/
structure Scraper where
  max_failures : Nat
  buffer_time : ℚ
deriving DecidableEq, Repr

/-- data.py lines 22-47, `WaterUFONet.__init__`: a buffer time below 10
seconds raises `ValueError`; otherwise construction succeeds and this is
the only raise in the constructor. -/
def init (max_failures : Nat) (buffer_time : ℚ) : Except String Scraper :=
  if buffer_time < 10 then
    .error "Buffer time must be at least 10 seconds."
  else
    .ok { max_failures := max_failures, buffer_time := buffer_time }

end WaterUFONet

namespace FAADroneSightings

/-- data.py line 197: base address for FAA file links. -/
def base : String := "https://www.faa.gov"

/-- data.py lines 199-201: the sightings index page. -/
def url : String :=
  "https://www.faa.gov/uas/resources/public_records/uas_sightings_report"

/-- The state a successfully constructed `FAADroneSightings` carries. -/
structure Scraper where
  buffer_time : Int
deriving DecidableEq, Repr

/-- data.py lines 190-203, `FAADroneSightings.__init__`: a buffer time
below 10 seconds raises `ValueError`; otherwise construction succeeds and
this is the only raise in the constructor. -/
def init (buffer_time : Int) : Except String Scraper :=
  if buffer_time < 10 then
    .error "Buffer time must be at least 10 seconds for this scraper."
  else
    .ok { buffer_time := buffer_time }

end FAADroneSightings

/-- C4: for every buffer time strictly below 10 seconds, constructing
`WaterUFONet` or `FAADroneSightings` fails with an error, and this is the
only fatal condition: for any buffer time of at least 10 seconds both
constructors succeed. -/
theorem C4_buffer_time_validation (mf : Nat) (bw : ℚ) (bf : Int) :
    ((WaterUFONet.init mf bw).isOk = false ↔ bw < 10) ∧
    ((FAADroneSightings.init bf).isOk = false ↔ bf < 10) := by
  constructor
  · unfold WaterUFONet.init
    by_cases h : bw < 10 <;> simp [h, Except.isOk, Except.toBool]
  · unfold FAADroneSightings.init
    by_cases h : bf < 10 <;> simp [h, Except.isOk, Except.toBool]

namespace FAADroneSightings

/-- A decoded JSON value, as far as `sample_extract` inspects it: the only
structural test the code performs is `isinstance(resp[0], list)`. -/
inductive JVal where
  | arr (xs : List JVal)
  | prim (s : String)

/-- Observable outcome of one `sample_extract` run (data.py lines 439-465):
`uncaught` is an exception the code lets escape, `mismatch` records the
size-mismatch diagnostic being printed, `presented` the (summary,
extracted value) pairs shown to the operator in the review loop.  The
Python function itself always returns `None`. -/
structure ExtractRun where
  uncaught : Option String
  mismatch : Bool
  presented : List (String × JVal)

/-- data.py lines 439-465, `sample_extract`, after the LLM call: `decoded`
is `list(json.loads(choices[0]).values())`.  The code indexes `resp[0]`
before any length check, so an empty decoded list raises `IndexError`; a
leading list value replaces the whole response; then a length mismatch
against the summaries prints the diagnostic and returns `None` before the
review loop, so no value is paired with any summary. -/
def sample_extract (summaries : List String) (decoded : List JVal) : ExtractRun :=
  match decoded with
  | [] =>
    { uncaught := some "IndexError: list index out of range",
      mismatch := false, presented := [] }
  | v0 :: rest =>
    let resp := match v0 with
      | .arr xs => xs
      | .prim _ => v0 :: rest
    if resp.length ≠ summaries.length then
      { uncaught := none, mismatch := true, presented := [] }
    else
      { uncaught := none, mismatch := false, presented := summaries.zip resp }

/-- C3 counterexample: an extraction response decoding to zero values
against one summary is a count mismatch, yet `sample_extract` does not
report it and return `None` — it raises an uncaught `IndexError` at
`resp[0]` before the length check. -/
theorem C3_counterexample :
    (List.length ([] : List JVal) ≠ List.length ["summary one"]) ∧
    (sample_extract ["summary one"] []).mismatch = false ∧
    (sample_extract ["summary one"] []).uncaught ≠ none := by
  refine ⟨by decide, rfl, by decide⟩

/-- C3 amended: whenever the decoded value list is nonempty and — after
unwrapping a leading list value, as the code does — its count differs from
the number of input summaries, `sample_extract` reports the mismatch and
returns no result, pairing none of the extracted values with any summary;
with an empty decoded list it instead raises an IndexError. -/
theorem C3_amended_mismatch_discards (summaries : List String)
    (v0 : JVal) (rest : List JVal)
    (h : (match v0 with
          | .arr xs => xs
          | .prim _ => v0 :: rest).length ≠ summaries.length) :
    sample_extract summaries (v0 :: rest) =
      { uncaught := none, mismatch := true, presented := [] } := by
  unfold sample_extract
  dsimp only
  rw [if_pos h]

/-- C3 witness: a decoded two-value response against three summaries is
reported as a mismatch and nothing is presented. -/
theorem C3_amended_witness :
    ((match JVal.prim "alpha" with
      | .arr xs => xs
      | .prim _ => [JVal.prim "alpha", JVal.prim "beta"]).length ≠
      (["s1", "s2", "s3"] : List String).length) ∧
    sample_extract ["s1", "s2", "s3"] [JVal.prim "alpha", JVal.prim "beta"] =
      { uncaught := none, mismatch := true, presented := [] } :=
  ⟨by decide,
   C3_amended_mismatch_discards ["s1", "s2", "s3"] (JVal.prim "alpha")
     [JVal.prim "beta"] (by decide)⟩

end FAADroneSightings

/-- Single-character string split, structurally recursive (so that concrete
runs reduce inside the kernel); it agrees with Python `str.split(sep)` for
the one-character separators `"."` and `"/"` used in data.py. -/
def splitCharAux (sep : Char) : List Char → List Char → List String
  | [], acc => [String.mk acc.reverse]
  | c :: cs, acc =>
    if c = sep then String.mk acc.reverse :: splitCharAux sep cs []
    else splitCharAux sep cs (c :: acc)

/-- `s.split(sep)` for a one-character separator. -/
def splitOnChar (sep : Char) (s : String) : List String :=
  splitCharAux sep s.toList []

/-- Python `str.startswith`, computed structurally over the characters. -/
def strStartsWith (s pat : String) : Bool := pat.toList.isPrefixOf s.toList

/-- Python `str.strip()`: leading and trailing whitespace removed, computed
structurally over the characters. -/
def pyStrip (s : String) : String :=
  String.mk ((s.toList.dropWhile Char.isWhitespace).reverse.dropWhile
    Char.isWhitespace).reverse

namespace FAADroneSightings

/-- A local file name written by `download_files`: the on-disk name is
`uas_sightings_report_<idx>.<ext>` (data.py line 242), kept structurally
as index plus extension. -/
structure FileName where
  idx : Nat
  ext : String
deriving DecidableEq, Repr

/-- data.py lines 238-240: `ftype = link.split(".")[-1]`, replaced by
"xlsx" when it is not a recognized spreadsheet suffix. -/
def inferExt (link : String) : String :=
  let t := (splitOnChar '.' link).getLastD ""
  if t = "xlsx" ∨ t = "xls" then t else "xlsx"

/-- data.py lines 233-247, `download_files`: the file names persisted into
the data directory, `uas_sightings_report_<index>.<ext>` with the
extension inferred from each link. -/
def download_files (links : List String) : List FileName :=
  links.enum.map (fun p => { idx := p.1, ext := inferExt p.2 })

/-- data.py line 301: `files = pth.glob("*.xlsx")` — of the persisted
names, exactly those whose extension is `xlsx` match the glob pattern and
are ingested by `read_files`. -/
def globXlsx (files : List FileName) : List FileName :=
  files.filter (fun f => f.ext = "xlsx")

/-- C8 counterexample: a link ending in `.xls` is persisted by
`download_files` as `uas_sightings_report_0.xls`, which the ingestion glob
`*.xlsx` of `read_files` does not match, so that persisted file is never
read back. -/
theorem C8_counterexample :
    (⟨0, "xls"⟩ : FileName) ∈
      download_files ["https://www.faa.gov/uas/sightings.xls"] ∧
    (⟨0, "xls"⟩ : FileName) ∉
      globXlsx (download_files ["https://www.faa.gov/uas/sightings.xls"]) := by
  refine ⟨by decide, by decide⟩

/-- C8 amended: a spreadsheet file persisted by `download_files` is read
back by the `read_files` ingestion glob exactly when its inferred
extension is `xlsx` (which includes every unrecognized suffix, defaulted
to `xlsx`); a file persisted with extension `xls` is never ingested. -/
theorem C8_amended_xlsx_roundtrip (links : List String) (f : FileName)
    (hf : f ∈ download_files links) :
    (f.ext = "xlsx" ∨ f.ext = "xls") ∧
    (f ∈ globXlsx (download_files links) ↔ f.ext = "xlsx") := by
  constructor
  · unfold download_files at hf
    rcases List.mem_map.mp hf with ⟨p, _, rfl⟩
    unfold inferExt
    dsimp only
    split
    · next h => exact h
    · exact Or.inl rfl
  · unfold globXlsx
    constructor
    · intro hmem
      exact of_decide_eq_true (List.mem_filter.mp hmem).2
    · intro hext
      exact List.mem_filter.mpr ⟨hf, decide_eq_true hext⟩

/-- C8 witness: a defaulted-suffix link round-trips through the glob, the
amended equivalence evaluated on a concrete download run. -/
theorem C8_amended_witness :
    ((⟨0, "xlsx"⟩ : FileName) ∈
      download_files ["https://www.faa.gov/uas/sightings.aspx"]) ∧
    (((⟨0, "xlsx"⟩ : FileName).ext = "xlsx" ∨
       (⟨0, "xlsx"⟩ : FileName).ext = "xls") ∧
      ((⟨0, "xlsx"⟩ : FileName) ∈
          globXlsx (download_files ["https://www.faa.gov/uas/sightings.aspx"]) ↔
        (⟨0, "xlsx"⟩ : FileName).ext = "xlsx")) :=
  ⟨by decide,
   C8_amended_xlsx_roundtrip ["https://www.faa.gov/uas/sightings.aspx"]
     ⟨0, "xlsx"⟩ (by decide)⟩

end FAADroneSightings

namespace WaterUFONet

/-- An HTML anchor as `process_snapshot` inspects it: BeautifulSoup
`a["href"]` (taken as present on these report anchors) and the optional
`alt` attribute queried via `a.get("alt")`. -/
structure Anchor where
  href : String
  alt : Option String
deriving DecidableEq, Repr

/-- A parsed snapshot page: `soup.find_all("table")` as a list of tables
(each table its `tr` rows, each row its `td` cell texts, not yet
stripped), and `soup.find_all("a")`. -/
structure Page where
  tables : List (List (List String))
  anchors : List Anchor
deriving DecidableEq, Repr

/-- Result of `requests.get` plus `raise_for_status` on one snapshot URL:
either an exception (connection failure or HTTP error status) or a parsed
page. -/
inductive Fetch where
  | err (msg : String)
  | ok (page : Page)
deriving DecidableEq, Repr

/-- The case table plus link column built by `process_snapshot`: row cell
data and the `link` column attached to the rows in order. -/
structure DF where
  data : List (List String)
  link : List String
deriving DecidableEq, Repr

/-- The anchors kept by data.py lines 85-90: `a.get("alt")` is not `None`
and starts with "View the Report". -/
def reportAnchors (page : Page) : List Anchor :=
  page.anchors.filter (fun a =>
    match a.alt with
    | some s => strStartsWith s "View the Report"
    | none => false)

/-- data.py lines 49-107, `process_snapshot`: fetch the snapshot (errors
caught and logged), locate the case table at index 4 of the page's table
elements (IndexError caught), build `table_data` from the stripped cell
texts of all rows after the header, collect the report links, and attach
them as a column (the pandas length-mismatch `ValueError` caught).
Returns (printed log, optional dataframe). -/
def process_snapshot (web : String → Fetch) (snapshot : String) :
    List String × Option DF :=
  match web snapshot with
  | .err e => ([s!"Error fetching data from {snapshot}!", e], none)
  | .ok page =>
    match page.tables.get? 4 with
    | none => (["Error parsing case table! Format may have changed."], none)
    | some tbl =>
      let table_data := (tbl.drop 1).map (fun row => row.map pyStrip)
      let links := (reportAnchors page).map (fun a => a.href)
      if links.isEmpty then
        (["No links found in the case table! Format may have changed."], none)
      else if links.length = table_data.length then
        ([], some { data := table_data,
                    link := links.map (fun l => s!"https://web.archive.org/{l}") })
      else
        (["Error adding links to dataframe!"], none)

/-- data.py lines 109-123, `get_case_tables`: loop over the first
`n_snapshots` snapshots, appending each dataframe that is not `None`
(`process_snapshot` handles its own exceptions, so the surrounding
try/except never fires). -/
def ctLoop (web : String → Fetch) : List String → List DF
  | [] => []
  | s :: rest =>
    match (process_snapshot web s).2 with
    | some df => df :: ctLoop web rest
    | none => ctLoop web rest

/-- `get_case_tables(n_snapshots)`: the frames collected over
`self.snapshots[:n_snapshots]`. -/
def get_case_tables (web : String → Fetch) (n_snapshots : Nat) : List DF :=
  ctLoop web (snapshots.take n_snapshots)

end WaterUFONet

namespace WaterUFONet

/-- C5: for a snapshot page whose case table (index 4 among the page's
table elements) holds one header row plus 5 data rows, and which carries
exactly 5 anchors whose alt text starts with "View the Report",
`process_snapshot` returns a 5-row table whose link column lists, in
anchor order, the web-archive base URL prefix concatenated with each
anchor's href. -/
theorem C5_five_row_snapshot (web : String → Fetch) (snapshot : String)
    (page : Page) (tbl : List (List String))
    (hfetch : web snapshot = .ok page)
    (htbl : page.tables.get? 4 = some tbl)
    (hrows : tbl.length = 6)
    (hlinks : (reportAnchors page).length = 5) :
    (process_snapshot web snapshot).2 =
      some { data := (tbl.drop 1).map (fun row => row.map pyStrip),
             link := (reportAnchors page).map
               (fun a => s!"https://web.archive.org/{a.href}") } ∧
    ((tbl.drop 1).map (fun row => row.map pyStrip)).length = 5 ∧
    ((reportAnchors page).map
      (fun a => s!"https://web.archive.org/{a.href}")).length = 5 := by
  have hdata : ((tbl.drop 1).map (fun row => row.map pyStrip)).length = 5 := by
    simp [hrows]
  have hlen : ((reportAnchors page).map (fun a => a.href)).length = 5 := by
    simp [hlinks]
  have hne : ((reportAnchors page).map (fun a => a.href)).isEmpty = false := by
    cases hcase : (reportAnchors page).map (fun a => a.href) with
    | nil => rw [hcase] at hlen; simp at hlen
    | cons a as => rfl
  refine ⟨?_, hdata, by simp [hlinks]⟩
  unfold process_snapshot
  rw [hfetch]
  dsimp only
  rw [htbl]
  dsimp only
  rw [hne]
  simp only [Bool.false_eq_true, if_false]
  rw [hlen, hdata, if_pos rfl]
  simp [List.map_map]

end WaterUFONet

namespace WaterUFONet

/-- A snapshot page with the case table (header plus 5 data rows) at table
index 4 and five "View the Report" anchors. -/
def pageFive : Page :=
  ⟨[[], [], [], [],
    [["Case", "Date"],
     [" c1 ", "d1"], ["c2", "d2"], ["c3", "d3"], ["c4", "d4"], ["c5", "d5"]]],
   [⟨"/web/1", some "View the Report 1"⟩, ⟨"/web/2", some "View the Report 2"⟩,
    ⟨"/web/3", some "View the Report 3"⟩, ⟨"/web/4", some "View the Report 4"⟩,
    ⟨"/web/5", some "View the Report 5"⟩]⟩

/-- A network that serves `pageFive` for every URL. -/
def webFive : String → Fetch := fun _ => .ok pageFive

/-- The first snapshot URL of the fixed list. -/
def snap1 : String :=
  "https://web.archive.org/web/20191022061839/http://www.waterufo.net/2012/search.php?txtSearch=all"

/-- The second snapshot URL of the fixed list. -/
def snap2 : String :=
  "https://web.archive.org/web/20191010100225/http://www.waterufo.net/2012/search.php?txtSearch=all"

/-- C5 witness: the five-row scenario evaluated on a concrete page. -/
theorem C5_witness :
    (webFive snap1 = .ok pageFive ∧
      pageFive.tables.get? 4 =
        some [["Case", "Date"], [" c1 ", "d1"], ["c2", "d2"], ["c3", "d3"],
              ["c4", "d4"], ["c5", "d5"]] ∧
      ([["Case", "Date"], [" c1 ", "d1"], ["c2", "d2"], ["c3", "d3"],
        ["c4", "d4"], ["c5", "d5"]] : List (List String)).length = 6 ∧
      (reportAnchors pageFive).length = 5) ∧
    (process_snapshot webFive snap1).2 =
      some { data := (([["Case", "Date"], [" c1 ", "d1"], ["c2", "d2"],
                        ["c3", "d3"], ["c4", "d4"], ["c5", "d5"]] :
                List (List String)).drop 1).map (fun row => row.map pyStrip),
             link := (reportAnchors pageFive).map
               (fun a => s!"https://web.archive.org/{a.href}") } :=
  ⟨⟨rfl, by decide, by decide, by decide⟩,
   (C5_five_row_snapshot webFive snap1 pageFive
     [["Case", "Date"], [" c1 ", "d1"], ["c2", "d2"], ["c3", "d3"],
      ["c4", "d4"], ["c5", "d5"]] rfl (by decide) (by decide) (by decide)).1⟩

end WaterUFONet

namespace WaterUFONet

/-- C9: each failure mode of one snapshot — the fetch raising or an HTTP
error status, the case table absent at index 4, or no report links found —
makes `process_snapshot` return `none` for that snapshot after logging a
message, and `get_case_tables` keeps processing the remaining snapshots,
returning exactly the frames of the snapshots that succeeded, in order. -/
theorem C9_snapshot_failures_skipped :
    (∀ web snapshot e, web snapshot = .err e →
      (process_snapshot web snapshot).2 = none ∧
      (process_snapshot web snapshot).1 =
        [s!"Error fetching data from {snapshot}!", e]) ∧
    (∀ web snapshot page, web snapshot = .ok page →
      page.tables.get? 4 = none →
      process_snapshot web snapshot =
        (["Error parsing case table! Format may have changed."], none)) ∧
    (∀ web snapshot page tbl, web snapshot = .ok page →
      page.tables.get? 4 = some tbl → reportAnchors page = [] →
      process_snapshot web snapshot =
        (["No links found in the case table! Format may have changed."], none)) ∧
    (∀ web n_snapshots, get_case_tables web n_snapshots =
      (snapshots.take n_snapshots).filterMap
        (fun s => (process_snapshot web s).2)) := by
  refine ⟨?_, ?_, ?_, ?_⟩
  · intro web snapshot e hf
    unfold process_snapshot
    rw [hf]
    exact ⟨rfl, rfl⟩
  · intro web snapshot page hf ht
    unfold process_snapshot
    rw [hf]
    dsimp only
    rw [ht]
  · intro web snapshot page tbl hf ht ha
    unfold process_snapshot
    rw [hf]
    dsimp only
    rw [ht]
    dsimp only
    rw [ha]
    rfl
  · intro web n
    unfold get_case_tables
    induction snapshots.take n with
    | nil => rfl
    | cons s rest ih =>
      rw [ctLoop, List.filterMap_cons]
      cases hps : (process_snapshot web s).2 <;> simp [hps, ih]

/-- A page whose table list has no index 4. -/
def pageNoTables : Page := ⟨[], []⟩

/-- A page with the case table present but no "View the Report" anchors. -/
def pageNoLinks : Page :=
  ⟨[[], [], [], [], [["h"], ["r"]]], [⟨"/x", none⟩]⟩

/-- A network where the first snapshot fetch raises, the second page lacks
the case table, and every other page has no report links. -/
def webFail : String → Fetch := fun s =>
  if s = snap1 then .err "boom"
  else if s = snap2 then .ok pageNoTables
  else .ok pageNoLinks

/-- C9 witness: the three failure modes exercised on concrete snapshots and
the per-snapshot results assembled by `get_case_tables`. -/
theorem C9_witness :
    (webFail snap1 = .err "boom" ∧
      (process_snapshot webFail snap1).2 = none) ∧
    (webFail snap2 = .ok pageNoTables ∧ pageNoTables.tables.get? 4 = none ∧
      process_snapshot webFail snap2 =
        (["Error parsing case table! Format may have changed."], none)) ∧
    (webFail "other" = .ok pageNoLinks ∧
      pageNoLinks.tables.get? 4 = some [["h"], ["r"]] ∧
      reportAnchors pageNoLinks = [] ∧
      process_snapshot webFail "other" =
        (["No links found in the case table! Format may have changed."], none)) ∧
    get_case_tables webFail 3 =
      (snapshots.take 3).filterMap (fun s => (process_snapshot webFail s).2) :=
  ⟨⟨by decide,
    (C9_snapshot_failures_skipped.1 webFail snap1 "boom" (by decide)).1⟩,
   ⟨by decide, by decide,
    C9_snapshot_failures_skipped.2.1 webFail snap2 pageNoTables
      (by decide) (by decide)⟩,
   ⟨by decide, by decide, by decide,
    C9_snapshot_failures_skipped.2.2.1 webFail "other" pageNoLinks
      [["h"], ["r"]] (by decide) (by decide) (by decide)⟩,
   C9_snapshot_failures_skipped.2.2.2 webFail 3⟩

end WaterUFONet

namespace WaterUFONet

/-- The observable outcome of `get_case_report(link)` (data.py lines
125-140) for one link, with the wall-clock readings `arrow.now()` taken
around the call in `get_case_reports`: `startT` just before the call,
`endT` just after a success; `result` is `none` when the fetch raised.
Timestamps are rational seconds. -/
structure ReportOutcome where
  startT : ℚ
  endT : ℚ
  result : Option String
deriving DecidableEq, Repr

/-- One progress line printed after a successful report (data.py lines
177-180): the zero-based position, the running average and the projected
completion timestamp. -/
structure Progress where
  idx : Nat
  averageTime : ℚ
  expectedEnd : ℚ
deriving DecidableEq, Repr

/-- One collected result dict `{"link": ..., "report": ...}`. -/
structure CaseReport where
  link : String
  report : String
deriving DecidableEq, Repr

/-- Accumulators of `get_case_reports`, shared across tables: `total_time`,
`failures`, `results`, the progress lines printed, and whether the
max-failures early return fired. -/
structure ReportsState where
  totalTime : ℚ
  failures : Nat
  results : List CaseReport
  progress : List Progress
  aborted : Bool
deriving DecidableEq, Repr

/-- data.py line 148: `total_time, failures, results = 0, 0, []`. -/
def initialReportsState : ReportsState := ⟨0, 0, [], [], false⟩

/-- `report_time` of a successful link fetch (data.py lines 164-167): the
elapsed wall time minus the buffer pause. -/
def report_time (buffer_time : ℚ) (webR : String → ReportOutcome)
    (l : String) : ℚ :=
  (webR l).endT - (webR l).startT - buffer_time

/-- data.py lines 151-181, the loop over `enumerate(table_links)`: on a
failed fetch the failure counter increases and reaching `max_failures`
returns early; on success the elapsed time minus the buffer accumulates
into `total_time`, the running average is `total_time / (idx + 1)`, and
the projected end shifts the report end time by `(average + buffer) *
remaining`.  `nLinks` is `len(table_links)`. -/
def reportsLoop (buffer_time : ℚ) (max_failures : Nat)
    (webR : String → ReportOutcome) (nLinks : Nat) :
    List String → Nat → ReportsState → ReportsState
  | [], _, st => st
  | l :: rest, idx, st =>
    match (webR l).result with
    | none =>
      let failures := st.failures + 1
      if max_failures ≤ failures then
        { st with failures := failures, aborted := true }
      else
        reportsLoop buffer_time max_failures webR nLinks rest (idx + 1)
          { st with failures := failures }
    | some report =>
      let total_time := st.totalTime + report_time buffer_time webR l
      let average := total_time / ((idx + 1 : Nat) : ℚ)
      let expected := (webR l).endT +
        (average + buffer_time) * ((nLinks - (idx + 1) : Nat) : ℚ)
      reportsLoop buffer_time max_failures webR nLinks rest (idx + 1)
        { st with totalTime := total_time,
                  results := st.results ++ [⟨l, report⟩],
                  progress := st.progress ++ [⟨idx, average, expected⟩] }

/-- data.py lines 142-186, `get_case_reports`: run the loop over the
`link` column of each frame produced by `get_case_tables(n_snapshots=1)`
(at most one frame exists), sharing the accumulators; the max-failures
`return results` stops all remaining work. -/
def get_case_reports (web : String → Fetch) (webR : String → ReportOutcome)
    (buffer_time : ℚ) (max_failures : Nat) : ReportsState :=
  (get_case_tables web 1).foldl
    (fun st t =>
      if st.aborted then st
      else reportsLoop buffer_time max_failures webR t.link.length t.link 0 st)
    initialReportsState

/-- Sum of the per-report times (elapsed minus buffer) of the successful
fetches among the given links. -/
def successSum (buffer_time : ℚ) (webR : String → ReportOutcome)
    (ls : List String) : ℚ :=
  (ls.filterMap (fun l =>
    match (webR l).result with
    | some _ => some (report_time buffer_time webR l)
    | none => none)).sum

/-- Number of successful fetches among the given links. -/
def successCount (webR : String → ReportOutcome) (ls : List String) : Nat :=
  ls.countP (fun l => ((webR l).result).isSome)

/-- What each printed progress line actually satisfies: the average is the
accumulated per-report time over the first `idx + 1` links divided by
`idx + 1` — the number of attempts so far, successes and failures alike —
and the projection shifts the report end time by (average + buffer) times
the remaining count. -/
def progressSpec (buffer_time : ℚ) (webR : String → ReportOutcome)
    (links : List String) (e : Progress) : Prop :=
  ∃ l, links[e.idx]? = some l ∧
    e.averageTime =
      successSum buffer_time webR (links.take (e.idx + 1)) /
        ((e.idx + 1 : Nat) : ℚ) ∧
    e.expectedEnd = (webR l).endT +
      (e.averageTime + buffer_time) * ((links.length - (e.idx + 1) : Nat) : ℚ)

end WaterUFONet

namespace WaterUFONet

theorem successSum_take_succ (buffer_time : ℚ) (webR : String → ReportOutcome)
    (links : List String) (i : Nat) (l : String) (hl : links[i]? = some l) :
    successSum buffer_time webR (links.take (i + 1)) =
      successSum buffer_time webR (links.take i) +
        (match (webR l).result with
         | some _ => report_time buffer_time webR l
         | none => 0) := by
  rw [List.take_succ, hl]
  unfold successSum
  rw [List.filterMap_append, List.sum_append]
  cases h : (webR l).result <;> simp [h]

/-- Invariant proof for the inner loop: if the accumulated time entering
position `i` is the success-time sum of the links already attempted, every
progress record the loop emits satisfies `progressSpec`. -/
theorem reportsLoop_progress (buffer_time : ℚ) (max_failures : Nat)
    (webR : String → ReportOutcome) (links : List String) :
    ∀ (rest : List String) (i : Nat) (st : ReportsState),
      rest = links.drop i →
      st.totalTime = successSum buffer_time webR (links.take i) →
      (∀ e ∈ st.progress, progressSpec buffer_time webR links e) →
      ∀ e ∈ (reportsLoop buffer_time max_failures webR links.length
               rest i st).progress,
        progressSpec buffer_time webR links e := by
  intro rest
  induction rest with
  | nil =>
    intro i st _ _ hP
    simpa [reportsLoop] using hP
  | cons l rest ih =>
    intro i st hdrop htot hP
    have hil : links[i]? = some l := by
      have h0 := List.getElem?_drop links i 0
      rw [← hdrop] at h0
      simpa using h0.symm
    have hrest : rest = links.drop (i + 1) := by
      have h1 : links.drop (i + 1) = (links.drop i).drop 1 := by
        rw [List.drop_drop, Nat.add_comm]
      rw [h1, ← hdrop]
      rfl
    rw [reportsLoop]
    cases hres : (webR l).result with
    | none =>
      by_cases habort : max_failures ≤ st.failures + 1
      · rw [if_pos habort]
        simpa using hP
      · rw [if_neg habort]
        refine ih (i + 1) _ hrest ?_ ?_
        · show st.totalTime = successSum buffer_time webR (links.take (i + 1))
          rw [successSum_take_succ buffer_time webR links i l hil, hres, htot,
              add_zero]
        · simpa using hP
    | some report =>
      refine ih (i + 1) _ hrest ?_ ?_
      · show st.totalTime + report_time buffer_time webR l =
          successSum buffer_time webR (links.take (i + 1))
        rw [successSum_take_succ buffer_time webR links i l hil, hres, htot]
      · intro e he
        dsimp only at he
        rw [List.mem_append] at he
        rcases he with he | he
        · exact hP e he
        · rw [List.mem_singleton] at he
          subst he
          refine ⟨l, hil, ?_, ?_⟩
          · show (st.totalTime + report_time buffer_time webR l) /
                ((i + 1 : Nat) : ℚ) =
              successSum buffer_time webR (links.take (i + 1)) /
                ((i + 1 : Nat) : ℚ)
            rw [successSum_take_succ buffer_time webR links i l hil, hres, htot]
          · rfl

end WaterUFONet

namespace WaterUFONet

/-- C10 amended: in `get_case_reports`, after each successfully fetched
report the running average equals the sum of the per-report processing
times so far (elapsed wall time minus the buffer pause, successes only)
divided by the number of reports attempted so far — `idx + 1`, the
report's 1-based position, counting failed attempts too, not the number of
successfully processed reports — and the projected completion timestamp
equals the report end time shifted by (average + buffer time) multiplied
by the number of remaining reports. -/
theorem C10_amended_progress (web : String → Fetch)
    (webR : String → ReportOutcome) (buffer_time : ℚ) (max_failures : Nat)
    (t : DF) (htab : get_case_tables web 1 = [t]) :
    ∀ e ∈ (get_case_reports web webR buffer_time max_failures).progress,
      progressSpec buffer_time webR t.link e := by
  unfold get_case_reports
  rw [htab, List.foldl_cons, List.foldl_nil]
  have hab : initialReportsState.aborted = false := rfl
  rw [if_neg (by rw [hab]; exact Bool.false_ne_true)]
  exact reportsLoop_progress buffer_time max_failures webR t.link t.link 0
    initialReportsState (List.drop_zero t.link).symm
    (by simp [initialReportsState, successSum])
    (by intro e he; simp [initialReportsState] at he)

/-- A snapshot page with a 2-row case table and two report anchors. -/
def pageTwo : Page :=
  ⟨[[], [], [], [], [["Case"], ["c1"], ["c2"]]],
   [⟨"web/r1", some "View the Report 1"⟩, ⟨"web/r2", some "View the Report 2"⟩]⟩

/-- A network serving `pageTwo` for every snapshot. -/
def webTwo : String → Fetch := fun _ => .ok pageTwo

/-- The frame `process_snapshot` builds from `pageTwo`. -/
def dfTwo : DF :=
  ⟨[["c1"], ["c2"]],
   ["https://web.archive.org/web/r1", "https://web.archive.org/web/r2"]⟩

/-- Report outcomes: the first link fails, the second succeeds taking 12
wall seconds (2 seconds net of the 10-second buffer). -/
def webRTwo : String → ReportOutcome := fun l =>
  if l = "https://web.archive.org/web/r1" then ⟨0, 0, none⟩
  else ⟨100, 112, some "report two"⟩

/-- C10 counterexample: with one failure before the first success, the
code's running average after the success at index 1 is 2 / (1 + 1) = 1,
while the claim's value — per-report time sum divided by the number of
successfully processed reports — is 2 / 1 = 2. -/
theorem C10_counterexample :
    (get_case_reports webTwo webRTwo 10 10).progress.map
      (fun e => e.averageTime) = [1] ∧
    successSum 10 webRTwo (dfTwo.link.take 2) /
      ((successCount webRTwo (dfTwo.link.take 2) : Nat) : ℚ) = 2 ∧
    (1 : ℚ) ≠ 2 := by
  have htab : get_case_tables webTwo 1 = [dfTwo] := by decide
  refine ⟨?_, ?_, by norm_num⟩
  · unfold get_case_reports
    rw [htab]
    simp [reportsLoop, dfTwo, webRTwo, report_time, initialReportsState]
    norm_num
  · simp [successSum, successCount, dfTwo, webRTwo, report_time]
    norm_num

/-- The single progress line printed in the two-link run. -/
def progTwo : Progress := ⟨1, 1, 112⟩

/-- C10 witness: the amended statement evaluated on the two-link run. -/
theorem C10_amended_witness :
    get_case_tables webTwo 1 = [dfTwo] ∧
    (get_case_reports webTwo webRTwo 10 10).progress = [progTwo] ∧
    progressSpec 10 webRTwo dfTwo.link progTwo := by
  have htab : get_case_tables webTwo 1 = [dfTwo] := by decide
  have hprog : (get_case_reports webTwo webRTwo 10 10).progress = [progTwo] := by
    unfold get_case_reports
    rw [htab]
    simp [reportsLoop, dfTwo, webRTwo, report_time, initialReportsState, progTwo]
    norm_num
  refine ⟨htab, hprog, ?_⟩
  exact C10_amended_progress webTwo webRTwo 10 10 dfTwo htab progTwo
    (by rw [hprog]; exact List.mem_singleton.mpr rfl)

end WaterUFONet

namespace FAADroneSightings

/-- An anchor on the FAA index pages: visible text and href. -/
structure FAnchor where
  text : String
  href : String
deriving DecidableEq, Repr

/-- data.py lines 206-214, `_extract_links`: the anchors whose visible
text starts with the pattern, as absolute links `base + href`. -/
def extract_links (anchors : List FAnchor) (pat : String) : List String :=
  (anchors.filter (fun a => strStartsWith a.text pat)).map
    (fun a => base ++ a.href)

/-- data.py line 224: `fname = link.split("/")[-1]`. -/
def fnameOf (link : String) : String := (splitOnChar '/' link).getLastD ""

/-- data.py lines 222-229, the embedded-index loop of `get_file_links`:
Python iterates over `file_links` while appending to it, so the loop also
examines the links it just appended; `i` is the iteration index, `remove`
collects the consumed sub-index links.  The loop need not terminate
(mutually embedded fy22 indexes grow the list forever), hence the fuel;
`none` models a run that never returns. -/
def linksLoop (web : String → List FAnchor) :
    Nat → Nat → List String → List String →
    Option (List String × List String)
  | 0, _, _, _ => none
  | fuel + 1, i, links, remove =>
    if i < links.length then
      if strStartsWith (fnameOf (links.getD i "")) "fy22-" then
        linksLoop web fuel (i + 1)
          (links ++ extract_links (web (links.getD i ""))
            "Reported-UAS-Sightings")
          (links.getD i "" :: remove)
      else
        linksLoop web fuel (i + 1) links remove
    else
      some (links, remove)

/-- data.py lines 205-231, `get_file_links`: extract the index-page links
whose text matches "Reported UAS Sightings", run the embedded-index loop,
and return `list(set(file_links) - remove)`.  Python's set iteration order
is unspecified, so the result is kept as the final list filtered by
removal and deduplicated; all theorems use membership only. -/
def get_file_links (web : String → List FAnchor) (fuel : Nat) :
    Option (List String) :=
  (linksLoop web fuel 0
      (extract_links (web url) "Reported UAS Sightings") []).map
    (fun p => (p.1.filter (fun x => !(p.2.contains x))).dedup)

theorem linksLoop_prefix (web : String → List FAnchor) :
    ∀ (fuel i : Nat) (links remove L R : List String),
      linksLoop web fuel i links remove = some (L, R) → links <+: L := by
  intro fuel
  induction fuel with
  | zero =>
    intro i links remove L R h
    exact absurd h (by simp [linksLoop])
  | succ fuel ih =>
    intro i links remove L R h
    rw [linksLoop] at h
    by_cases hi : i < links.length
    · rw [if_pos hi] at h
      by_cases hf : strStartsWith (fnameOf (links.getD i "")) "fy22-" = true
      · rw [if_pos hf] at h
        exact (List.prefix_append _ _).trans (ih _ _ _ _ _ h)
      · rw [if_neg hf] at h
        exact ih _ _ _ _ _ h
    · rw [if_neg hi] at h
      cases h
      exact List.prefix_rfl

theorem linksLoop_remove (web : String → List FAnchor) :
    ∀ (fuel i : Nat) (links remove L R : List String),
      linksLoop web fuel i links remove = some (L, R) →
      remove ⊆ R ∧
      ∀ r ∈ R, r ∈ remove ∨ strStartsWith (fnameOf r) "fy22-" = true := by
  intro fuel
  induction fuel with
  | zero =>
    intro i links remove L R h
    exact absurd h (by simp [linksLoop])
  | succ fuel ih =>
    intro i links remove L R h
    rw [linksLoop] at h
    by_cases hi : i < links.length
    · rw [if_pos hi] at h
      by_cases hf : strStartsWith (fnameOf (links.getD i "")) "fy22-" = true
      · rw [if_pos hf] at h
        obtain ⟨hsub, hrest⟩ := ih _ _ _ _ _ h
        refine ⟨fun r hr => hsub (List.mem_cons_of_mem _ hr), ?_⟩
        intro r hr
        rcases hrest r hr with hmem | hfy
        · rcases List.mem_cons.mp hmem with rfl | hmem
          · exact Or.inr hf
          · exact Or.inl hmem
        · exact Or.inr hfy
      · rw [if_neg hf] at h
        exact ih _ _ _ _ _ h
    · rw [if_neg hi] at h
      cases h
      exact ⟨fun r hr => hr, fun r hr => Or.inl hr⟩

theorem linksLoop_processed (web : String → List FAnchor) :
    ∀ (fuel i : Nat) (links remove L R : List String),
      linksLoop web fuel i links remove = some (L, R) →
      ∀ j, i ≤ j → j < L.length →
        strStartsWith (fnameOf (L.getD j "")) "fy22-" = true →
        L.getD j "" ∈ R ∧
        ∀ s ∈ extract_links (web (L.getD j "")) "Reported-UAS-Sightings",
          s ∈ L := by
  intro fuel
  induction fuel with
  | zero =>
    intro i links remove L R h
    exact absurd h (by simp [linksLoop])
  | succ fuel ih =>
    intro i links remove L R h
    rw [linksLoop] at h
    by_cases hi : i < links.length
    · rw [if_pos hi] at h
      by_cases hf : strStartsWith (fnameOf (links.getD i "")) "fy22-" = true
      · rw [if_pos hf] at h
        intro j hij hjL hfy
        rcases Nat.eq_or_lt_of_le hij with rfl | hlt
        · obtain ⟨t, rfl⟩ := linksLoop_prefix web fuel _ _ _ L R h
          have hLj : ((links ++ extract_links (web (links.getD i ""))
              "Reported-UAS-Sightings") ++ t).getD i "" = links.getD i "" := by
            rw [List.getD_append _ _ _ _
                (by rw [List.length_append]; omega),
              List.getD_append _ _ _ _ hi]
          rw [hLj]
          obtain ⟨hsub, _⟩ := linksLoop_remove web fuel _ _ _ _ R h
          refine ⟨hsub (List.mem_cons_self _ _), ?_⟩
          intro s hs
          exact List.mem_append_left _ (List.mem_append_right _ hs)
        · exact ih _ _ _ _ _ h j hlt hjL hfy
      · rw [if_neg hf] at h
        intro j hij hjL hfy
        rcases Nat.eq_or_lt_of_le hij with rfl | hlt
        · obtain ⟨t, rfl⟩ := linksLoop_prefix web fuel _ _ _ L R h
          rw [List.getD_append _ _ _ _ hi] at hfy
          exact absurd hfy hf
        · exact ih _ _ _ _ _ h j hlt hjL hfy
    · rw [if_neg hi] at h
      cases h
      intro j hij hjL _
      exact absurd hjL (by omega)

end FAADroneSightings

namespace FAADroneSightings

/-- Membership in the returned set: in the final link list and not among
the consumed sub-index links. -/
theorem get_file_links_mem (web : String → List FAnchor) (fuel : Nat)
    (res : List String) (h : get_file_links web fuel = some res) :
    ∃ L R, linksLoop web fuel 0
        (extract_links (web url) "Reported UAS Sightings") [] = some (L, R) ∧
      ∀ x, x ∈ res ↔ x ∈ L ∧ x ∉ R := by
  unfold get_file_links at h
  cases hl : linksLoop web fuel 0
      (extract_links (web url) "Reported UAS Sightings") [] with
  | none => rw [hl] at h; cases h
  | some p =>
    rw [hl] at h
    cases h
    refine ⟨p.1, p.2, rfl, ?_⟩
    intro x
    rw [List.mem_dedup, List.mem_filter]
    constructor
    · rintro ⟨hx, hmem⟩
      refine ⟨hx, ?_⟩
      intro hxR
      simp [hxR] at hmem
    · rintro ⟨hx, hxR⟩
      exact ⟨hx, by simp [hxR]⟩

end FAADroneSightings

namespace FAADroneSightings

/-- C6 amended: when discovery finds an index link whose filename starts
with `fy22-`, that link is followed and is itself absent from the returned
set, and the links extracted from its sub-index page with the second
text-match pattern are included in the returned set — except any whose own
filename also starts with `fy22-`, which the growing-list loop likewise
treats as sub-indexes to consume and exclude. -/
theorem C6_amended_fy22_links (web : String → List FAnchor) (fuel : Nat)
    (res : List String) (l0 : String)
    (hres : get_file_links web fuel = some res)
    (hl0 : l0 ∈ extract_links (web url) "Reported UAS Sightings")
    (hfy : strStartsWith (fnameOf l0) "fy22-" = true) :
    l0 ∉ res ∧
    ∀ s ∈ extract_links (web l0) "Reported-UAS-Sightings",
      strStartsWith (fnameOf s) "fy22-" = false → s ∈ res := by
  obtain ⟨L, R, hloop, hmem⟩ := get_file_links_mem web fuel res hres
  have hl0L : l0 ∈ L := by
    obtain ⟨t, rfl⟩ := linksLoop_prefix web fuel 0 _ [] L R hloop
    exact List.mem_append_left _ hl0
  obtain ⟨j, hjlt, hjget⟩ := List.getElem_of_mem hl0L
  have hgetD : L.getD j "" = l0 := by
    rw [List.getD_eq_getElem _ _ hjlt]
    exact hjget
  have hproc := linksLoop_processed web fuel 0 _ [] L R hloop j
    (Nat.zero_le j) hjlt (by rw [hgetD]; exact hfy)
  rw [hgetD] at hproc
  obtain ⟨hl0R, hsub⟩ := hproc
  constructor
  · intro hcontra
    exact ((hmem l0).mp hcontra).2 hl0R
  · intro s hs hsf
    have hsL : s ∈ L := hsub s hs
    have hsR : s ∉ R := by
      intro hsR
      rcases (linksLoop_remove web fuel 0 _ [] L R hloop).2 s hsR with h | h
      · simp at h
      · rw [h] at hsf
        cases hsf
    exact (hmem s).mpr ⟨hsL, hsR⟩

/-- An index page with one fy22- sub-index whose own extracted link again
carries the fy22- filename convention. -/
def webNested : String → List FAnchor := fun s =>
  if s = url then [⟨"Reported UAS Sightings FY22", "/uas/fy22-index"⟩]
  else if s = "https://www.faa.gov/uas/fy22-index" then
    [⟨"Reported-UAS-Sightings (sub)", "/uas/fy22-sub.xlsx"⟩]
  else []

/-- An index page with one fy22- sub-index whose extracted link is an
ordinary file link. -/
def webPlain : String → List FAnchor := fun s =>
  if s = url then [⟨"Reported UAS Sightings FY22", "/uas/fy22-index"⟩]
  else if s = "https://www.faa.gov/uas/fy22-index" then
    [⟨"Reported-UAS-Sightings (sub)", "/uas/sub1.xlsx"⟩]
  else []

/-- C6 counterexample: discovery finds the fy22- index link, its sub-index
page yields one link with the second pattern, yet the returned set is
empty — the sub-extracted link also bears the fy22- filename prefix, so
the loop consumes and excludes it instead of including it. -/
theorem C6_counterexample :
    extract_links (webNested url) "Reported UAS Sightings" =
      ["https://www.faa.gov/uas/fy22-index"] ∧
    strStartsWith (fnameOf "https://www.faa.gov/uas/fy22-index") "fy22-" =
      true ∧
    extract_links (webNested "https://www.faa.gov/uas/fy22-index")
      "Reported-UAS-Sightings" = ["https://www.faa.gov/uas/fy22-sub.xlsx"] ∧
    get_file_links webNested 5 = some [] ∧
    "https://www.faa.gov/uas/fy22-sub.xlsx" ∉ ([] : List String) := by
  refine ⟨by decide, by decide, by decide, by decide, by decide⟩

/-- C6 witness: the amended statement evaluated on the ordinary sub-index
run — the fy22- index link is absent, the sub-extracted link present. -/
theorem C6_amended_witness :
    get_file_links webPlain 5 = some ["https://www.faa.gov/uas/sub1.xlsx"] ∧
    "https://www.faa.gov/uas/fy22-index" ∈
      extract_links (webPlain url) "Reported UAS Sightings" ∧
    strStartsWith (fnameOf "https://www.faa.gov/uas/fy22-index") "fy22-" =
      true ∧
    "https://www.faa.gov/uas/fy22-index" ∉
      ["https://www.faa.gov/uas/sub1.xlsx"] ∧
    "https://www.faa.gov/uas/sub1.xlsx" ∈
      ["https://www.faa.gov/uas/sub1.xlsx"] := by
  have hres : get_file_links webPlain 5 =
      some ["https://www.faa.gov/uas/sub1.xlsx"] := by decide
  have happ := C6_amended_fy22_links webPlain 5
    ["https://www.faa.gov/uas/sub1.xlsx"] "https://www.faa.gov/uas/fy22-index"
    hres (by decide) (by decide)
  exact ⟨hres, by decide, by decide, happ.1,
    happ.2 "https://www.faa.gov/uas/sub1.xlsx" (by decide) (by decide)⟩

end FAADroneSightings
